import Mathlib

/-!
# mqtt2prom: the MQTT message handler and the connect loop

A shallow embedding of `mqtt2prom.go`.

* Go strings and byte slices (topic names, payloads, label values) are lists of
  characters, that is, byte sequences that are valid UTF-8.  The characters the
  handler looks at (`/`, newline, the letters of its four keywords) are ASCII.
* The Prometheus gauges are an external sink: a call
  `gauge.WithLabelValues(x, y).Set(v)` is recorded as one `Update`, and the
  handler returns the updates it issues, in program order.  The output on
  `stdout` is left out.
* The section `OnBytes` repeats the handler on arbitrary bytes, where
  `WithLabelValues` panics on a label value that is not valid UTF-8; the question
  whether the handler returns at all is settled there.
* A failed slice index (a Go run-time panic) is the result `none`.
* The three library calls of the handler (`strconv.ParseFloat`,
  `json.Unmarshal` into a `SonoffState`, `json.Unmarshal` into a
  `SonoffSensor`) and the conversion `float64(n)` are the fields of a `Lib`
  record; every theorem about the handler holds for every such record.
* The topic regular expression is embedded by its backtracking (leftmost-first,
  greedy) semantics.
-/

namespace Mqtt2Prom

/-! ## Data model -/

/-- Go `string` / `[]byte`. -/
abbrev Str := List Char

/-- The anonymous struct of the field `Wifi` of `SonoffState`. -/
structure SonoffWifi where
  AP : Int
  SSID : Str
  BSSID : Str
  Channel : Int
  RSSI : Int
  Signal : Int
  LinkCount : Int
  Downtime : Str
deriving DecidableEq

/-- Go struct `SonoffState`; `F` is the type of `float64` values. -/
structure SonoffState (F : Type) where
  Time : Str
  Uptime : Int
  UptimeSec : Int
  Heap : Int
  SleepMode : Str
  Sleep : Int
  LoadAvg : Int
  MqttCount : Int
  Vcc : F
  POWER : Str
  POWER1 : Str
  POWER2 : Str
  POWER3 : Str
  POWER4 : Str
  Wifi : SonoffWifi
deriving DecidableEq

/-- The anonymous struct of the field `ENERGY` of `SonoffSensor`. -/
structure SonoffEnergy (F : Type) where
  Total : F
  Yesterday : F
  Today : F
  Period : Int
  Power : Int
  Factor : F
  Voltage : Int
  Current : F
deriving DecidableEq

/-- Go struct `SonoffSensor`. -/
structure SonoffSensor (F : Type) where
  Time : Str
  ENERGY : SonoffEnergy F
deriving DecidableEq

/-- The library the handler calls into.  The second component of a result is
`true` when the call returned a non-nil error. -/
structure Lib (F : Type) where
  /-- The conversion `float64(n)` of an `int`. -/
  float64 : Int → F
  /-- The call `strconv.ParseFloat(string(message), 8)`: value and error. -/
  ParseFloat : Str → F × Bool
  /-- The call `json.Unmarshal(message, &state)`: the struct afterwards, and the error. -/
  UnmarshalState : Str → SonoffState F → SonoffState F × Bool
  /-- The call `json.Unmarshal(message, &sensor)`: the struct afterwards, and the error. -/
  UnmarshalSensor : Str → SonoffSensor F → SonoffSensor F × Bool

/-- The zero value of `float64`. -/
def Lib.zero {F : Type} (lib : Lib F) : F := lib.float64 0

/-- The composite literal `SonoffState{}`. -/
def SonoffState.empty {F : Type} (lib : Lib F) : SonoffState F :=
  { Time := [], Uptime := 0, UptimeSec := 0, Heap := 0, SleepMode := [], Sleep := 0,
    LoadAvg := 0, MqttCount := 0, Vcc := lib.zero,
    POWER := [], POWER1 := [], POWER2 := [], POWER3 := [], POWER4 := [],
    Wifi := { AP := 0, SSID := [], BSSID := [], Channel := 0, RSSI := 0, Signal := 0,
              LinkCount := 0, Downtime := [] } }

/-- The composite literal `SonoffSensor{}`. -/
def SonoffSensor.empty {F : Type} (lib : Lib F) : SonoffSensor F :=
  { Time := [],
    ENERGY := { Total := lib.zero, Yesterday := lib.zero, Today := lib.zero, Period := 0,
                Power := 0, Factor := lib.zero, Voltage := 0, Current := lib.zero } }

/-- The eight gauge vectors created in `main`, by their `Name`. -/
inductive Gauge
  | VCC | RSSI | Power | Voltage | Current | Total | Temperature | Humidity
deriving DecidableEq, Repr

/-- One call `gauge.WithLabelValues(lv1, lv2).Set(value)`. -/
structure Update (F : Type) where
  gauge : Gauge
  lv1 : Str
  lv2 : Str
  value : F
deriving DecidableEq

/-! ## The topic regular expression -/

/-- The greedy `.+` at the start of `s`: every split of `s` into a non-empty
prefix without a newline and the rest, the longest prefix first (the order in
which a backtracking matcher tries them). -/
def dotPlus : Str → List (Str × Str)
  | [] => []
  | c :: s =>
    if c = '\n' then []
    else (dotPlus s).map (fun p => (c :: p.1, p.2)) ++ [([c], s)]

/-- The tail `\/(.+)$` with the first two groups `x`, `y` matched: a `/`, then the
third group, then the end of the text (`$` without the flag `m`). -/
def matchLabel3 (s x y : Str) (r : Str) : Option (List Str) :=
  match r with
  | '/' :: r2 => (dotPlus r2).findSome? (fun q => if q.2 = [] then some [s, x, y, q.1] else none)
  | _ => none

/-- The tail `\/(.+)\/(.+)$` with the first group `x` matched: a `/`, then the second
group, longest candidate first, then the rest of the pattern. -/
def matchLabel2 (s x : Str) (r : Str) : Option (List Str) :=
  match r with
  | '/' :: r1 => (dotPlus r1).findSome? (fun q => matchLabel3 s x q.1 q.2)
  | _ => none

/-- The result of `r.FindStringSubmatch(s)` for
`r = ^(?P<label1>.+)\/(?P<label2>.+)\/(?P<label3>.+)$`: the whole match and the
three groups of the first successful alternative, or `nil` (the empty slice). -/
def FindStringSubmatch (s : Str) : List Str :=
  match (dotPlus s).findSome? (fun p => matchLabel2 s p.1 p.2) with
  | some a => a
  | none => []

/-! ## The message handler -/

/-- The slice index `a[i]`; `none` is the run-time panic of an index out of range. -/
def index (a : List Str) (i : Nat) : Option Str := a[i]?

/-- Handler lines 174-177. -/
def temperatureBranch {F : Type} (lib : Lib F) (a : List Str) (message : Str) :
    Option (List (Update F)) := do
  let a1 ← index a 1
  if a1 = "temperature".toList then
    let f := (lib.ParseFloat message).1
    let a2 ← index a 2
    let a3 ← index a 3
    pure [⟨Gauge.Temperature, a2, a3, f⟩]
  else pure []

/-- Handler lines 178-181. -/
def humidityBranch {F : Type} (lib : Lib F) (a : List Str) (message : Str) :
    Option (List (Update F)) := do
  let a1 ← index a 1
  if a1 = "humidity".toList then
    let f := (lib.ParseFloat message).1
    let a2 ← index a 2
    let a3 ← index a 3
    pure [⟨Gauge.Humidity, a2, a3, f⟩]
  else pure []

/-- The two `if`s on one `POWER` field: `suffix` is what is appended to `a[2]`. -/
def powerUpdates {F : Type} (lib : Lib F) (a : List Str) (field suffix : Str) :
    Option (List (Update F)) := do
  let whenOn ←
    if field = "ON".toList then do
      let a2 ← index a 2
      let a1 ← index a 1
      pure [(⟨Gauge.Power, a2 ++ suffix, a1, lib.float64 1⟩ : Update F)]
    else pure []
  let whenOff ←
    if field = "OFF".toList then do
      let a2 ← index a 2
      let a1 ← index a 1
      pure [(⟨Gauge.Power, a2 ++ suffix, a1, lib.float64 0⟩ : Update F)]
    else pure []
  pure (whenOn ++ whenOff)

/-- Handler lines 182-219. -/
def stateBranch {F : Type} (lib : Lib F) (a : List Str) (message : Str) :
    Option (List (Update F)) := do
  let a3 ← index a 3
  if a3 = "STATE".toList then
    let state := (lib.UnmarshalState message (SonoffState.empty lib)).1
    let a2 ← index a 2
    let a1 ← index a 1
    let vcc : Update F := ⟨Gauge.VCC, a2, a1, state.Vcc⟩
    let rssi : Update F := ⟨Gauge.RSSI, a2, a1, lib.float64 state.Wifi.RSSI⟩
    let p ← powerUpdates lib a state.POWER []
    let p1 ← powerUpdates lib a state.POWER1 "1".toList
    let p2 ← powerUpdates lib a state.POWER2 "2".toList
    let p3 ← powerUpdates lib a state.POWER3 "3".toList
    let p4 ← powerUpdates lib a state.POWER4 "4".toList
    pure ([vcc, rssi] ++ p ++ p1 ++ p2 ++ p3 ++ p4)
  else pure []

/-- Handler lines 220-228. -/
def sensorBranch {F : Type} (lib : Lib F) (a : List Str) (message : Str) :
    Option (List (Update F)) := do
  let a3 ← index a 3
  if a3 = "SENSOR".toList then
    let sensor := (lib.UnmarshalSensor message (SonoffSensor.empty lib)).1
    let a2 ← index a 2
    let a1 ← index a 1
    pure [⟨Gauge.Current, a2, a1, sensor.ENERGY.Current⟩,
          ⟨Gauge.Voltage, a2, a1, lib.float64 sensor.ENERGY.Voltage⟩,
          ⟨Gauge.Power, a2, a1, lib.float64 sensor.ENERGY.Power⟩,
          ⟨Gauge.Total, a2, a1, sensor.ENERGY.Today⟩]
  else pure []

/-- The `Handler` closure of the subscription (lines 165-231): the gauge
updates it issues for one message, or `none` if it panics. -/
def Handler {F : Type} (lib : Lib F) (topicName message : Str) : Option (List (Update F)) :=
  let a := FindStringSubmatch topicName
  if a.length ≥ 3 then do
    let t ← temperatureBranch lib a message
    let h ← humidityBranch lib a message
    let st ← stateBranch lib a message
    let se ← sensorBranch lib a message
    pure (t ++ h ++ st ++ se)
  else pure []

/-- The values passed to `Set` on gauge `g` at label values `(x, y)` among the
updates `out`, in order: `[]` is "no update", `[v]` is "set once, to `v`". -/
def updatesAt {F : Type} (out : List (Update F)) (g : Gauge) (x y : Str) : List F :=
  (out.filter (fun u => decide (u.gauge = g ∧ u.lv1 = x ∧ u.lv2 = y))).map (fun u => u.value)

/-! ## The handler once the topic has matched -/

/-- The updates of `powerUpdates` on one field when `a[1] = l1` and `a[2] = l2`. -/
def powerSets {F : Type} (lib : Lib F) (l1 l2 field suffix : Str) : List (Update F) :=
  (if field = "ON".toList then [⟨Gauge.Power, l2 ++ suffix, l1, lib.float64 1⟩] else []) ++
  (if field = "OFF".toList then [⟨Gauge.Power, l2 ++ suffix, l1, lib.float64 0⟩] else [])

/-- The updates of the STATE branch for the decoded `state` when `a[1] = l1` and `a[2] = l2`. -/
def stateSets {F : Type} (lib : Lib F) (l1 l2 : Str) (state : SonoffState F) : List (Update F) :=
  [⟨Gauge.VCC, l2, l1, state.Vcc⟩, ⟨Gauge.RSSI, l2, l1, lib.float64 state.Wifi.RSSI⟩] ++
  powerSets lib l1 l2 state.POWER [] ++ powerSets lib l1 l2 state.POWER1 "1".toList ++
  powerSets lib l1 l2 state.POWER2 "2".toList ++ powerSets lib l1 l2 state.POWER3 "3".toList ++
  powerSets lib l1 l2 state.POWER4 "4".toList

/-- The updates of the SENSOR branch for the decoded `sensor` when `a[1] = l1` and `a[2] = l2`. -/
def sensorSets {F : Type} (lib : Lib F) (l1 l2 : Str) (sensor : SonoffSensor F) :
    List (Update F) :=
  [⟨Gauge.Current, l2, l1, sensor.ENERGY.Current⟩,
   ⟨Gauge.Voltage, l2, l1, lib.float64 sensor.ENERGY.Voltage⟩,
   ⟨Gauge.Power, l2, l1, lib.float64 sensor.ENERGY.Power⟩,
   ⟨Gauge.Total, l2, l1, sensor.ENERGY.Today⟩]

/-! ## The connect loop -/

/-- What the connect loop (lines 79-92) does, call by call. -/
inductive Event
  | Connect
  | Printf (err : Str)
  | Print (msg : Str)
  | Sleep (d : Nat)
deriving DecidableEq

/-- Go `time.Second`, in nanoseconds. -/
def Second : Nat := 1000000000

/-- One iteration of the loop in which `cli.Connect` returned the error `err`. -/
def failedRound (err : Str) : List Event :=
  [Event.Connect, Event.Printf err, Event.Print "retry in 30s".toList, Event.Sleep (30 * Second)]

/-- The loop `for { err := cli.Connect(..); if err == nil { break }; log.Printf(..);
log.Print(..); time.Sleep(30 * time.Second) }`.  `connect k` is the result of the
call number `k` of `cli.Connect` (`none` is a nil error), `k` the number of calls
made so far.  The result is the trace of the loop once it is left; `none` means
the loop is still running after `fuel` iterations. -/
def connectLoop (connect : Nat → Option Str) : Nat → Nat → Option (List Event)
  | 0, _ => none
  | fuel + 1, k =>
    match connect k with
    | none => some [Event.Connect]
    | some err => (connectLoop connect fuel (k + 1)).map (fun t => failedRound err ++ t)

/-- Number of calls of `cli.Connect` in a trace. -/
def attempts (t : List Event) : Nat := t.count Event.Connect

/-- The durations of the calls of `time.Sleep` in a trace, in order. -/
def sleeps : List Event → List Nat
  | [] => []
  | Event.Sleep d :: t => d :: sleeps t
  | _ :: t => sleeps t

/-! ## A library instance for the examples -/

/-- Values of type `float64` in the examples: `dec m e` is the `float64` nearest to
the decimal numeral `m * 10 ^ e`. -/
inductive Float64
  | dec (m : Int) (e : Int)
  | posInf
  | negInf
deriving DecidableEq

/-- The STATE payload of the specification's example. -/
def statePayload : Str :=
  "\x7b\"Vcc\":3.3,\"Wifi\":\x7b\"RSSI\":-60\x7d,\"POWER\":\"ON\",\"POWER1\":\"OFF\"\x7d".toList

/-- A STATE payload that is valid JSON with a string where `Uptime` wants an `int`. -/
def stateMismatchPayload : Str := "\x7b\"Vcc\":3.3,\"Uptime\":\"0T00:05:13\"\x7d".toList

/-- The SENSOR payload of the specification's example. -/
def sensorPayload : Str :=
  "\x7b\"ENERGY\":\x7b\"Current\":0.5,\"Voltage\":230,\"Power\":115,\"Today\":1.2\x7d\x7d".toList

/-- The results of the library calls on the payloads of the examples, as the Go
packages `strconv` and `encoding/json` document them.  `ParseFloat`: `23.5` parses;
`1e999` is a numeral out of range (`+Inf` with `ErrRange`); the other payloads used
are no numerals (0 with `ErrSyntax`).  `Unmarshal`: the two example payloads decode;
in `stateMismatchPayload` the value of `Uptime` has the wrong type, so that field is
skipped, `Vcc` is stored, and an `UnmarshalTypeError` is returned; the other
payloads used (`not json`, `23.5`) are rejected with the struct left as it was. -/
def exampleLib : Lib Float64 where
  float64 := fun n => Float64.dec n 0
  ParseFloat := fun message =>
    if message = "23.5".toList then (Float64.dec 235 (-1), false)
    else if message = "1e999".toList then (Float64.posInf, true)
    else (Float64.dec 0 0, true)
  UnmarshalState := fun message state =>
    if message = statePayload then
      ({ state with Vcc := Float64.dec 33 (-1), POWER := "ON".toList, POWER1 := "OFF".toList,
                    Wifi := { state.Wifi with RSSI := -60 } }, false)
    else if message = stateMismatchPayload then
      ({ state with Vcc := Float64.dec 33 (-1) }, true)
    else (state, true)
  UnmarshalSensor := fun message sensor =>
    if message = sensorPayload then
      ({ sensor with ENERGY := { sensor.ENERGY with Current := Float64.dec 5 (-1), Voltage := 230,
                                                    Power := 115, Today := Float64.dec 12 (-1) } },
        false)
    else (sensor, true)

/-! ## The handler on the bytes of the topic, with the check of the gauge vectors

The `Handler` closure takes `topicName, message []byte`, and a Go string may hold any
bytes.  `WithLabelValues` panics when a label value is not valid UTF-8.  The definitions
of this section repeat the handler with topics and payloads as byte sequences and with
that check at every call of `WithLabelValues`.  The regexp works on the bytes as it does
on characters: `/` and the newline are single bytes that occur in no multi-byte encoding,
and `.` also matches a byte that is not part of a valid encoding. -/

namespace OnBytes

/-- Go `[]byte`, and a Go `string` seen as its bytes. -/
abbrev Bytes := List Nat

/-- The bytes of a string literal of the source (all of them are ASCII). -/
def ascii (s : String) : Bytes := s.toList.map Char.toNat

/-- Where a UTF-8 decoder stands inside an encoding: at its start, before the last one, two
or three continuation bytes, or right after a leading byte that narrows the range of the
second byte. -/
inductive Utf8State
  | start | tail1 | tail2 | tail3 | afterE0 | afterED | afterF0 | afterF4
deriving DecidableEq

/-- One byte of Go `utf8.ValidString`: the next state, or `none` for a byte that cannot
come here. -/
def utf8Step : Utf8State → Nat → Option Utf8State
  | Utf8State.start, b =>
    if b < 0x80 then some Utf8State.start
    else if 0xC2 ≤ b ∧ b ≤ 0xDF then some Utf8State.tail1
    else if b = 0xE0 then some Utf8State.afterE0
    else if (0xE1 ≤ b ∧ b ≤ 0xEC) ∨ b = 0xEE ∨ b = 0xEF then some Utf8State.tail2
    else if b = 0xED then some Utf8State.afterED
    else if b = 0xF0 then some Utf8State.afterF0
    else if 0xF1 ≤ b ∧ b ≤ 0xF3 then some Utf8State.tail3
    else if b = 0xF4 then some Utf8State.afterF4
    else none
  | Utf8State.tail1, b => if 0x80 ≤ b ∧ b ≤ 0xBF then some Utf8State.start else none
  | Utf8State.tail2, b => if 0x80 ≤ b ∧ b ≤ 0xBF then some Utf8State.tail1 else none
  | Utf8State.tail3, b => if 0x80 ≤ b ∧ b ≤ 0xBF then some Utf8State.tail2 else none
  | Utf8State.afterE0, b => if 0xA0 ≤ b ∧ b ≤ 0xBF then some Utf8State.tail1 else none
  | Utf8State.afterED, b => if 0x80 ≤ b ∧ b ≤ 0x9F then some Utf8State.tail1 else none
  | Utf8State.afterF0, b => if 0x90 ≤ b ∧ b ≤ 0xBF then some Utf8State.tail2 else none
  | Utf8State.afterF4, b => if 0x80 ≤ b ∧ b ≤ 0x8F then some Utf8State.tail2 else none

/-- The bytes `s` read from state `st` end at the start of an encoding. -/
def validFrom : Utf8State → Bytes → Bool
  | st, [] => decide (st = Utf8State.start)
  | st, b :: rest =>
    match utf8Step st b with
    | some next => validFrom next rest
    | none => false

/-- Go `utf8.ValidString(s)`. -/
def ValidString (s : Bytes) : Bool := validFrom Utf8State.start s

/-- The library on byte payloads; the fields are those of `Lib`. -/
structure ByteLib (F : Type) where
  /-- The conversion `float64(n)` of an `int`. -/
  float64 : Int → F
  /-- The call `strconv.ParseFloat(string(message), 8)`: value and error. -/
  ParseFloat : Bytes → F × Bool
  /-- The call `json.Unmarshal(message, &state)`: the struct afterwards, and the error. -/
  UnmarshalState : Bytes → SonoffState F → SonoffState F × Bool
  /-- The call `json.Unmarshal(message, &sensor)`: the struct afterwards, and the error. -/
  UnmarshalSensor : Bytes → SonoffSensor F → SonoffSensor F × Bool

/-- The composite literal `SonoffState{}`. -/
def emptyState {F : Type} (lib : ByteLib F) : SonoffState F :=
  { Time := [], Uptime := 0, UptimeSec := 0, Heap := 0, SleepMode := [], Sleep := 0,
    LoadAvg := 0, MqttCount := 0, Vcc := lib.float64 0,
    POWER := [], POWER1 := [], POWER2 := [], POWER3 := [], POWER4 := [],
    Wifi := { AP := 0, SSID := [], BSSID := [], Channel := 0, RSSI := 0, Signal := 0,
              LinkCount := 0, Downtime := [] } }

/-- The composite literal `SonoffSensor{}`. -/
def emptySensor {F : Type} (lib : ByteLib F) : SonoffSensor F :=
  { Time := [],
    ENERGY := { Total := lib.float64 0, Yesterday := lib.float64 0, Today := lib.float64 0,
                Period := 0, Power := 0, Factor := lib.float64 0, Voltage := 0,
                Current := lib.float64 0 } }

/-- One call `gauge.WithLabelValues(lv1, lv2).Set(value)` that went through. -/
structure ByteUpdate (F : Type) where
  gauge : Gauge
  lv1 : Bytes
  lv2 : Bytes
  value : F
deriving DecidableEq

/-- The call `gauge.WithLabelValues(lv1, lv2).Set(value)` on a gauge vector with two label
names: the update, or `none` for the panic of `WithLabelValues` on a label value that is
not valid UTF-8. -/
def WithLabelValues {F : Type} (gauge : Gauge) (lv1 lv2 : Bytes) (value : F) :
    Option (ByteUpdate F) :=
  if ValidString lv1 && ValidString lv2 then some ⟨gauge, lv1, lv2, value⟩ else none

/-- The greedy `.+` at the start of `s`, as `dotPlus`; the newline is the byte 10. -/
def dotPlus : Bytes → List (Bytes × Bytes)
  | [] => []
  | c :: s =>
    if c = 10 then []
    else (dotPlus s).map (fun p => (c :: p.1, p.2)) ++ [([c], s)]

/-- The tail `\/(.+)$`, as `matchLabel3`; `/` is the byte 47. -/
def matchLabel3 (s x y : Bytes) (r : Bytes) : Option (List Bytes) :=
  match r with
  | 47 :: r2 => (dotPlus r2).findSome? (fun q => if q.2 = [] then some [s, x, y, q.1] else none)
  | _ => none

/-- The tail `\/(.+)\/(.+)$`, as `matchLabel2`. -/
def matchLabel2 (s x : Bytes) (r : Bytes) : Option (List Bytes) :=
  match r with
  | 47 :: r1 => (dotPlus r1).findSome? (fun q => matchLabel3 s x q.1 q.2)
  | _ => none

/-- The result of `r.FindStringSubmatch(string(topicName))` on the bytes of the topic. -/
def FindStringSubmatch (s : Bytes) : List Bytes :=
  match (dotPlus s).findSome? (fun p => matchLabel2 s p.1 p.2) with
  | some a => a
  | none => []

/-- The slice index `a[i]`; `none` is the run-time panic of an index out of range. -/
def index (a : List Bytes) (i : Nat) : Option Bytes := a[i]?

/-- Handler lines 174-177. -/
def temperatureBranch {F : Type} (lib : ByteLib F) (a : List Bytes) (message : Bytes) :
    Option (List (ByteUpdate F)) := do
  let a1 ← index a 1
  if a1 = ascii "temperature" then
    let f := (lib.ParseFloat message).1
    let a2 ← index a 2
    let a3 ← index a 3
    let u ← WithLabelValues Gauge.Temperature a2 a3 f
    pure [u]
  else pure []

/-- Handler lines 178-181. -/
def humidityBranch {F : Type} (lib : ByteLib F) (a : List Bytes) (message : Bytes) :
    Option (List (ByteUpdate F)) := do
  let a1 ← index a 1
  if a1 = ascii "humidity" then
    let f := (lib.ParseFloat message).1
    let a2 ← index a 2
    let a3 ← index a 3
    let u ← WithLabelValues Gauge.Humidity a2 a3 f
    pure [u]
  else pure []

/-- The two `if`s on one `POWER` field: `suffix` is what is appended to `a[2]`. -/
def powerUpdates {F : Type} (lib : ByteLib F) (a : List Bytes) (field : Str) (suffix : Bytes) :
    Option (List (ByteUpdate F)) := do
  let whenOn ←
    if field = "ON".toList then do
      let a2 ← index a 2
      let a1 ← index a 1
      let u ← WithLabelValues Gauge.Power (a2 ++ suffix) a1 (lib.float64 1)
      pure [u]
    else pure []
  let whenOff ←
    if field = "OFF".toList then do
      let a2 ← index a 2
      let a1 ← index a 1
      let u ← WithLabelValues Gauge.Power (a2 ++ suffix) a1 (lib.float64 0)
      pure [u]
    else pure []
  pure (whenOn ++ whenOff)

/-- Handler lines 182-219. -/
def stateBranch {F : Type} (lib : ByteLib F) (a : List Bytes) (message : Bytes) :
    Option (List (ByteUpdate F)) := do
  let a3 ← index a 3
  if a3 = ascii "STATE" then
    let state := (lib.UnmarshalState message (emptyState lib)).1
    let a2 ← index a 2
    let a1 ← index a 1
    let vcc ← WithLabelValues Gauge.VCC a2 a1 state.Vcc
    let a2 ← index a 2
    let a1 ← index a 1
    let rssi ← WithLabelValues Gauge.RSSI a2 a1 (lib.float64 state.Wifi.RSSI)
    let p ← powerUpdates lib a state.POWER []
    let p1 ← powerUpdates lib a state.POWER1 (ascii "1")
    let p2 ← powerUpdates lib a state.POWER2 (ascii "2")
    let p3 ← powerUpdates lib a state.POWER3 (ascii "3")
    let p4 ← powerUpdates lib a state.POWER4 (ascii "4")
    pure ([vcc, rssi] ++ p ++ p1 ++ p2 ++ p3 ++ p4)
  else pure []

/-- Handler lines 220-228. -/
def sensorBranch {F : Type} (lib : ByteLib F) (a : List Bytes) (message : Bytes) :
    Option (List (ByteUpdate F)) := do
  let a3 ← index a 3
  if a3 = ascii "SENSOR" then
    let sensor := (lib.UnmarshalSensor message (emptySensor lib)).1
    let a2 ← index a 2
    let a1 ← index a 1
    let current ← WithLabelValues Gauge.Current a2 a1 sensor.ENERGY.Current
    let voltage ← WithLabelValues Gauge.Voltage a2 a1 (lib.float64 sensor.ENERGY.Voltage)
    let power ← WithLabelValues Gauge.Power a2 a1 (lib.float64 sensor.ENERGY.Power)
    let total ← WithLabelValues Gauge.Total a2 a1 sensor.ENERGY.Today
    pure [current, voltage, power, total]
  else pure []

/-- The `Handler` closure of the subscription (lines 165-231) on the bytes it is given:
the gauge updates it issues for one message, or `none` if it panics, at a slice index or
in `WithLabelValues`. -/
def Handler {F : Type} (lib : ByteLib F) (topicName message : Bytes) :
    Option (List (ByteUpdate F)) :=
  let a := FindStringSubmatch topicName
  if a.length ≥ 3 then do
    let t ← temperatureBranch lib a message
    let h ← humidityBranch lib a message
    let st ← stateBranch lib a message
    let se ← sensorBranch lib a message
    pure (t ++ h ++ st ++ se)
  else pure []

/-- The handler run on a sequence of messages `(topic, payload)`, one after the other:
all updates issued, or `none` as soon as one run panics (the messages after it are never
handled). -/
def HandleAll {F : Type} (lib : ByteLib F) : List (Bytes × Bytes) → Option (List (ByteUpdate F))
  | [] => some []
  | m :: rest => do
    let out ← Handler lib m.1 m.2
    let outs ← HandleAll lib rest
    pure (out ++ outs)

/-- The library of the examples on byte payloads: `exampleLib` on the characters of the
payload, which is ASCII in every example. -/
def exampleByteLib : ByteLib Float64 where
  float64 := exampleLib.float64
  ParseFloat := fun message => exampleLib.ParseFloat (message.map Char.ofNat)
  UnmarshalState := fun message state => exampleLib.UnmarshalState (message.map Char.ofNat) state
  UnmarshalSensor := fun message sensor =>
    exampleLib.UnmarshalSensor (message.map Char.ofNat) sensor

/-- The topic `temperature/<0xFF>/c`: its second segment is the single byte `0xFF`. -/
def badTopic : Bytes := ascii "temperature/" ++ [0xFF] ++ ascii "/c"

end OnBytes

/-! ## Facts about the topic regular expression -/

theorem mem_dotPlus {s x r : Str} (h : (x, r) ∈ dotPlus s) :
    x ≠ [] ∧ s = x ++ r ∧ '\n' ∉ x := by
  induction s generalizing x with
  | nil => simp [dotPlus] at h
  | cons c s ih =>
    simp only [dotPlus] at h
    split_ifs at h with hc
    · simp at h
    · simp only [List.mem_append, List.mem_map, List.mem_singleton, Prod.mk.injEq] at h
      rcases h with ⟨p, hp, rfl, rfl⟩ | ⟨rfl, rfl⟩
      · obtain ⟨_, h2, h3⟩ := ih (x := p.1) hp
        refine ⟨by simp, by simp [← h2], ?_⟩
        simp only [List.mem_cons, not_or]
        exact ⟨fun h => hc h.symm, h3⟩
      · refine ⟨by simp, by simp, ?_⟩
        simp only [List.mem_singleton]
        exact fun h => hc h.symm

theorem findSome_dotPlus {β : Type} (p s : Str) (hp : p ≠ []) (hnl : '\n' ∉ p) :
    ∀ (f : Str × Str → Option β) (v : β),
      (∀ q ∈ dotPlus s, f (p ++ q.1, q.2) = none) → f (p, s) = some v →
      (dotPlus (p ++ s)).findSome? f = some v := by
  induction p with
  | nil => exact absurd rfl hp
  | cons c p ih =>
    intro f v hlong hv
    have hc : c ≠ '\n' := fun h => hnl (by simp [h])
    have hnl2 : '\n' ∉ p := fun h => hnl (by simp [h])
    simp only [List.cons_append, dotPlus, if_neg hc, List.findSome?_append, List.findSome?_map,
      List.append_eq]
    by_cases hp2 : p = []
    · subst hp2
      have h0 : List.findSome? (f ∘ fun q => (c :: q.1, q.2)) (dotPlus s) = none := by
        rw [List.findSome?_eq_none_iff]
        intro q hq
        simpa using hlong q hq
      simp only [List.nil_append] at *
      rw [h0]
      simp [List.findSome?, hv]
    · have h1 := ih hp2 hnl2 (f ∘ fun q => (c :: q.1, q.2)) v
        (by intro q hq; simpa using hlong q hq) (by simpa using hv)
      rw [h1]
      simp

theorem matchLabel3_some {s x y r : Str} {a : List Str} (h : matchLabel3 s x y r = some a) :
    ∃ z, z ≠ [] ∧ '\n' ∉ z ∧ r = '/' :: z ∧ a = [s, x, y, z] := by
  unfold matchLabel3 at h
  split at h
  · obtain ⟨q, hq, hf⟩ := List.exists_of_findSome?_eq_some h
    obtain ⟨z, r3⟩ := q
    obtain ⟨hz, hs, hn⟩ := mem_dotPlus hq
    by_cases h3 : r3 = []
    · subst h3
      simp only [if_true, Option.some.injEq] at hf
      exact ⟨z, hz, hn, by simp [hs], hf.symm⟩
    · simp [h3] at hf
  · exact absurd h (by simp)

theorem matchLabel2_some {s x r : Str} {a : List Str} (h : matchLabel2 s x r = some a) :
    ∃ y z, y ≠ [] ∧ z ≠ [] ∧ '\n' ∉ y ∧ '\n' ∉ z ∧ r = '/' :: (y ++ '/' :: z) ∧
      a = [s, x, y, z] := by
  unfold matchLabel2 at h
  split at h
  · obtain ⟨q, hq, hf⟩ := List.exists_of_findSome?_eq_some h
    obtain ⟨y, r2⟩ := q
    obtain ⟨hy, hs, hn⟩ := mem_dotPlus hq
    obtain ⟨z, hz, hnz, hr, ha⟩ := matchLabel3_some hf
    dsimp only at hr ha
    exact ⟨y, z, hy, hz, hn, hnz, by simp [hs, hr], ha⟩
  · exact absurd h (by simp)

/-- A successful match has the form `x/y/z` with three non-empty groups and no newline. -/
theorem FindStringSubmatch_shape (s : Str) :
    FindStringSubmatch s = [] ∨
    ∃ x y z, x ≠ [] ∧ y ≠ [] ∧ z ≠ [] ∧ '\n' ∉ s ∧ s = x ++ '/' :: (y ++ '/' :: z) ∧
      FindStringSubmatch s = [s, x, y, z] := by
  unfold FindStringSubmatch
  split
  · rename_i a h
    right
    obtain ⟨q, hq, hf⟩ := List.exists_of_findSome?_eq_some h
    obtain ⟨x, r⟩ := q
    obtain ⟨hx, hs, hn⟩ := mem_dotPlus hq
    obtain ⟨y, z, hy, hz, hny, hnz, hr, ha⟩ := matchLabel2_some hf
    dsimp only at hr ha
    refine ⟨x, y, z, hx, hy, hz, ?_, by rw [hs, hr], ha⟩
    rw [hs, hr]
    simp [hn, hny, hnz]
  · left; rfl

theorem matchLabel3_eq (s x y l3 : Str) (h3 : l3 ≠ []) (n3 : '\n' ∉ l3) :
    matchLabel3 s x y ('/' :: l3) = some [s, x, y, l3] := by
  have h := findSome_dotPlus l3 [] h3 n3
    (fun q => if q.2 = [] then some [s, x, y, q.1] else none) [s, x, y, l3]
    (by simp [dotPlus]) (by simp)
  simpa [matchLabel3] using h

theorem matchLabel2_eq (s x l2 l3 : Str) (h2 : l2 ≠ []) (h3 : l3 ≠ [])
    (n2 : '\n' ∉ l2) (n3 : '\n' ∉ l3) (s3 : '/' ∉ l3) :
    matchLabel2 s x ('/' :: (l2 ++ '/' :: l3)) = some [s, x, l2, l3] := by
  have h := findSome_dotPlus l2 ('/' :: l3) h2 n2
    (fun q => matchLabel3 s x q.1 q.2) [s, x, l2, l3] ?_ (matchLabel3_eq s x l2 l3 h3 n3)
  · simpa [matchLabel2] using h
  · intro q hq
    obtain ⟨hq1, hs, _⟩ := mem_dotPlus (x := q.1) (r := q.2) hq
    cases hm : matchLabel3 s x (l2 ++ q.1) q.2 with
    | none => exact hm
    | some a =>
      exfalso
      obtain ⟨z, _, _, hr, _⟩ := matchLabel3_some hm
      rw [hr] at hs
      cases hq' : q.1 with
      | nil => exact hq1 hq'
      | cons d q' =>
        rw [hq'] at hs
        simp only [List.cons_append, List.cons.injEq] at hs
        apply s3
        rw [hs.2]
        simp

/-- A topic `l1/l2/l3` without newline, whose last two parts are non-empty and
without `/`, matches with exactly these groups (`l1` may contain `/`). -/
theorem FindStringSubmatch_eq (l1 l2 l3 : Str) (h1 : l1 ≠ []) (h2 : l2 ≠ []) (h3 : l3 ≠ [])
    (n1 : '\n' ∉ l1) (n2 : '\n' ∉ l2) (n3 : '\n' ∉ l3) (s2 : '/' ∉ l2) (s3 : '/' ∉ l3) :
    FindStringSubmatch (l1 ++ '/' :: (l2 ++ '/' :: l3)) =
      [l1 ++ '/' :: (l2 ++ '/' :: l3), l1, l2, l3] := by
  have h := findSome_dotPlus l1 ('/' :: (l2 ++ '/' :: l3)) h1 n1
    (fun q => matchLabel2 (l1 ++ '/' :: (l2 ++ '/' :: l3)) q.1 q.2)
    [l1 ++ '/' :: (l2 ++ '/' :: l3), l1, l2, l3] ?_
    (matchLabel2_eq _ l1 l2 l3 h2 h3 n2 n3 s3)
  · unfold FindStringSubmatch
    rw [h]
  · intro q hq
    obtain ⟨hq1, hs, _⟩ := mem_dotPlus (x := q.1) (r := q.2) hq
    cases hm : matchLabel2 (l1 ++ '/' :: (l2 ++ '/' :: l3)) (l1 ++ q.1) q.2 with
    | none => exact hm
    | some a =>
      exfalso
      obtain ⟨y, z, _, _, _, _, hr, _⟩ := matchLabel2_some hm
      rw [hr] at hs
      cases hq' : q.1 with
      | nil => exact hq1 hq'
      | cons d q' =>
        rw [hq'] at hs
        simp only [List.cons_append, List.cons.injEq] at hs
        have hc := congrArg (List.count '/') hs.2
        simp only [List.count_append, List.count_cons_self, List.count_eq_zero_of_not_mem s2,
          List.count_eq_zero_of_not_mem s3] at hc
        omega



/-! ## Facts about the handler -/

theorem powerUpdates_eq {F : Type} (lib : Lib F) (s l1 l2 l3 field suffix : Str) :
    powerUpdates lib [s, l1, l2, l3] field suffix = some (powerSets lib l1 l2 field suffix) := by
  simp only [powerUpdates, powerSets, index, List.getElem?_cons_succ, List.getElem?_cons_zero,
    Option.bind_eq_bind, Option.some_bind]
  split_ifs <;> rfl

theorem temperatureBranch_eq {F : Type} (lib : Lib F) (s l1 l2 l3 message : Str) :
    temperatureBranch lib [s, l1, l2, l3] message = some
      (if l1 = "temperature".toList then
        [⟨Gauge.Temperature, l2, l3, (lib.ParseFloat message).1⟩] else []) := by
  simp only [temperatureBranch, index, List.getElem?_cons_succ, List.getElem?_cons_zero,
    Option.bind_eq_bind, Option.some_bind]
  split_ifs <;> rfl

theorem humidityBranch_eq {F : Type} (lib : Lib F) (s l1 l2 l3 message : Str) :
    humidityBranch lib [s, l1, l2, l3] message = some
      (if l1 = "humidity".toList then
        [⟨Gauge.Humidity, l2, l3, (lib.ParseFloat message).1⟩] else []) := by
  simp only [humidityBranch, index, List.getElem?_cons_succ, List.getElem?_cons_zero,
    Option.bind_eq_bind, Option.some_bind]
  split_ifs <;> rfl

theorem stateBranch_eq {F : Type} (lib : Lib F) (s l1 l2 l3 message : Str) :
    stateBranch lib [s, l1, l2, l3] message = some
      (if l3 = "STATE".toList then
        stateSets lib l1 l2 (lib.UnmarshalState message (SonoffState.empty lib)).1 else []) := by
  simp only [stateBranch, powerUpdates_eq, index, stateSets, List.getElem?_cons_succ,
    List.getElem?_cons_zero, Option.bind_eq_bind, Option.some_bind]
  split_ifs <;> rfl

theorem sensorBranch_eq {F : Type} (lib : Lib F) (s l1 l2 l3 message : Str) :
    sensorBranch lib [s, l1, l2, l3] message = some
      (if l3 = "SENSOR".toList then
        sensorSets lib l1 l2 (lib.UnmarshalSensor message (SonoffSensor.empty lib)).1 else []) := by
  simp only [sensorBranch, index, sensorSets, List.getElem?_cons_succ,
    List.getElem?_cons_zero, Option.bind_eq_bind, Option.some_bind]
  split_ifs <;> rfl

/-- The handler on a topic that matched with groups `l1`, `l2`, `l3`. -/
theorem Handler_of_match {F : Type} (lib : Lib F) (topicName l1 l2 l3 message : Str)
    (h : FindStringSubmatch topicName = [topicName, l1, l2, l3]) :
    Handler lib topicName message = some (
      (if l1 = "temperature".toList then
        [⟨Gauge.Temperature, l2, l3, (lib.ParseFloat message).1⟩] else []) ++
      (if l1 = "humidity".toList then
        [⟨Gauge.Humidity, l2, l3, (lib.ParseFloat message).1⟩] else []) ++
      (if l3 = "STATE".toList then
        stateSets lib l1 l2 (lib.UnmarshalState message (SonoffState.empty lib)).1 else []) ++
      (if l3 = "SENSOR".toList then
        sensorSets lib l1 l2 (lib.UnmarshalSensor message (SonoffSensor.empty lib)).1 else [])) := by
  unfold Handler
  rw [h]
  simp only [temperatureBranch_eq, humidityBranch_eq, stateBranch_eq, sensorBranch_eq]
  rfl

/-- The handler on a topic that did not match. -/
theorem Handler_of_no_match {F : Type} (lib : Lib F) (topicName message : Str)
    (h : FindStringSubmatch topicName = []) : Handler lib topicName message = some [] := by
  unfold Handler
  rw [h]
  rfl

theorem updatesAt_append {F : Type} (o1 o2 : List (Update F)) (g : Gauge) (x y : Str) :
    updatesAt (o1 ++ o2) g x y = updatesAt o1 g x y ++ updatesAt o2 g x y := by
  simp [updatesAt]

theorem updatesAt_nil {F : Type} (g : Gauge) (x y : Str) :
    updatesAt ([] : List (Update F)) g x y = [] := rfl

theorem updatesAt_cons {F : Type} (u : Update F) (o : List (Update F)) (g : Gauge) (x y : Str) :
    updatesAt (u :: o) g x y =
      (if u.gauge = g ∧ u.lv1 = x ∧ u.lv2 = y then [u.value] else []) ++ updatesAt o g x y := by
  unfold updatesAt
  by_cases h : u.gauge = g ∧ u.lv1 = x ∧ u.lv2 = y
  · simp [List.filter_cons, h]
  · rw [List.filter_cons]
    simp [h]

theorem updatesAt_ite {F : Type} (c : Prop) [Decidable c] (o : List (Update F)) (g : Gauge)
    (x y : Str) :
    updatesAt (if c then o else []) g x y = if c then updatesAt o g x y else [] := by
  split <;> rfl

theorem updatesAt_powerSets {F : Type} (lib : Lib F) (l1 l2 field c d : Str) :
    updatesAt (powerSets lib l1 l2 field d) Gauge.Power (l2 ++ c) l1 =
      if c = d then
        (if field = "ON".toList then [lib.float64 1]
         else if field = "OFF".toList then [lib.float64 0] else [])
      else [] := by
  simp only [powerSets, updatesAt_append, updatesAt_ite, updatesAt_cons, updatesAt_nil,
    List.append_cancel_left_eq, List.append_nil, true_and, and_true]
  have hdc : d = c ↔ c = d := eq_comm
  simp only [hdc]
  split_ifs <;> simp_all

theorem updatesAt_powerSets_base {F : Type} (lib : Lib F) (l1 l2 field d : Str) :
    updatesAt (powerSets lib l1 l2 field d) Gauge.Power l2 l1 =
      if [] = d then
        (if field = "ON".toList then [lib.float64 1]
         else if field = "OFF".toList then [lib.float64 0] else [])
      else [] := by
  have h := updatesAt_powerSets lib l1 l2 field [] d
  rwa [List.append_nil] at h

theorem updatesAt_powerSets_other {F : Type} (lib : Lib F) (l1 l2 field d : Str) (g : Gauge)
    (x y : Str) (hg : g ≠ Gauge.Power) :
    updatesAt (powerSets lib l1 l2 field d) g x y = [] := by
  have hg2 : ¬ Gauge.Power = g := fun h => hg h.symm
  simp only [powerSets, updatesAt_append, updatesAt_ite, updatesAt_cons, updatesAt_nil, hg2,
    false_and, if_false, List.append_nil, ite_self]


/-- A topic that matches contains at least two `/`. -/
theorem count_slash_of_match {s : Str} (h : FindStringSubmatch s ≠ []) : 2 ≤ s.count '/' := by
  rcases FindStringSubmatch_shape s with h0 | ⟨x, y, z, _, _, _, _, hs, _⟩
  · exact absurd h0 h
  · have hc := congrArg (List.count '/') hs
    simp only [List.count_append, List.count_cons_self] at hc
    omega

theorem stateSets_empty {F : Type} (lib : Lib F) (l1 l2 : Str) :
    stateSets lib l1 l2 (SonoffState.empty lib) =
      [⟨Gauge.VCC, l2, l1, lib.zero⟩, ⟨Gauge.RSSI, l2, l1, lib.zero⟩] := by
  simp [stateSets, powerSets, SonoffState.empty, Lib.zero]

theorem sensorSets_empty {F : Type} (lib : Lib F) (l1 l2 : Str) :
    sensorSets lib l1 l2 (SonoffSensor.empty lib) =
      [⟨Gauge.Current, l2, l1, lib.zero⟩, ⟨Gauge.Voltage, l2, l1, lib.zero⟩,
       ⟨Gauge.Power, l2, l1, lib.zero⟩, ⟨Gauge.Total, l2, l1, lib.zero⟩] := by
  simp [sensorSets, SonoffSensor.empty, Lib.zero]

/-! ## Facts about the connect loop -/

theorem attempts_failedRound (err : Str) (t : List Event) :
    attempts (failedRound err ++ t) = attempts t + 1 := by
  simp [attempts, failedRound, List.count_cons]

theorem sleeps_failedRound (err : Str) (t : List Event) :
    sleeps (failedRound err ++ t) = 30 * Second :: sleeps t := by
  simp [sleeps, failedRound]

/-- The loop started at call number `k`, when the calls `k, .., k + errs.length - 1` fail
with the errors `errs` and the next call succeeds. -/
theorem connectLoop_trace (connect : Nat → Option Str) (errs : List Str) :
    ∀ (k fuel : Nat),
      (∀ i (hi : i < errs.length), connect (k + i) = some (errs.get ⟨i, hi⟩)) →
      connect (k + errs.length) = none → errs.length < fuel →
      connectLoop connect fuel k = some (errs.flatMap failedRound ++ [Event.Connect]) := by
  induction errs with
  | nil =>
    intro k fuel _ hok hfuel
    cases fuel with
    | zero => exact absurd hfuel (by simp)
    | succ fuel =>
      simp only [List.length_nil, Nat.add_zero] at hok
      simp [connectLoop, hok]
  | cons e errs ih =>
    intro k fuel hfail hok hfuel
    cases fuel with
    | zero => exact absurd hfuel (by simp)
    | succ fuel =>
      have h0 : connect k = some e := by simpa using hfail 0 (by simp)
      have hrest := ih (k + 1) fuel
        (by
          intro i hi
          have h := hfail (i + 1) (by simpa using hi)
          simpa [Nat.add_assoc, Nat.add_comm 1 i] using h)
        (by simpa [Nat.add_assoc, Nat.add_comm 1 errs.length] using hok)
        (by simpa using hfuel)
      simp [connectLoop, h0, hrest]

theorem attempts_rounds (errs : List Str) (t : List Event) :
    attempts (errs.flatMap failedRound ++ t) = errs.length + attempts t := by
  induction errs with
  | nil => simp
  | cons e errs ih =>
    rw [List.flatMap_cons, List.append_assoc, attempts_failedRound, ih, List.length_cons]
    omega

theorem sleeps_rounds (errs : List Str) (t : List Event) :
    sleeps (errs.flatMap failedRound ++ t) = List.replicate errs.length (30 * Second) ++ sleeps t := by
  induction errs with
  | nil => simp
  | cons e errs ih =>
    rw [List.flatMap_cons, List.append_assoc, sleeps_failedRound, ih, List.length_cons,
      List.replicate_succ, List.cons_append]


/-! ## The mapping rules -/

/-- C1 (amended).  For a topic `l1/l2/STATE` with `l1`, `l2` non-empty and without a
newline, `l2` without `/`, and a payload that `json.Unmarshal` decodes to the
state `s`, the handler returns, sets VCC at `(l2, l1)` to `s.Vcc`, sets RSSI at `(l2, l1)`
to `float64(s.Wifi.RSSI)`, and for each of the five power channels sets Power at
`(l2 ++ c, l1)` to 1 if the field is `ON`, to 0 if it is `OFF`, and issues no update
there otherwise. -/
theorem state_mapping {F : Type} (lib : Lib F) (l1 l2 message : Str) (s : SonoffState F)
    (h1 : l1 ≠ []) (h2 : l2 ≠ []) (s2 : '/' ∉ l2)
    (n1 : '\n' ∉ l1) (n2 : '\n' ∉ l2)
    (hs : lib.UnmarshalState message (SonoffState.empty lib) = (s, false)) :
    ∃ out, Handler lib (l1 ++ '/' :: (l2 ++ '/' :: "STATE".toList)) message = some out ∧
      updatesAt out Gauge.VCC l2 l1 = [s.Vcc] ∧
      updatesAt out Gauge.RSSI l2 l1 = [lib.float64 s.Wifi.RSSI] ∧
      ∀ p ∈ [(([] : Str), s.POWER), ("1".toList, s.POWER1), ("2".toList, s.POWER2),
             ("3".toList, s.POWER3), ("4".toList, s.POWER4)],
        updatesAt out Gauge.Power (l2 ++ p.1) l1 =
          if p.2 = "ON".toList then [lib.float64 1]
          else if p.2 = "OFF".toList then [lib.float64 0] else [] := by
  have hm := FindStringSubmatch_eq l1 l2 "STATE".toList h1 h2 (by decide) n1 n2 (by decide) s2
    (by decide)
  refine ⟨_, Handler_of_match lib _ l1 l2 _ message hm, ?_, ?_, ?_⟩
  · simp [hs, stateSets, updatesAt_append, updatesAt_ite, updatesAt_cons, updatesAt_nil,
      updatesAt_powerSets_other]
  · simp [hs, stateSets, updatesAt_append, updatesAt_ite, updatesAt_cons, updatesAt_nil,
      updatesAt_powerSets_other]
  · intro p hp
    simp only [List.mem_cons, List.mem_singleton, List.not_mem_nil, or_false] at hp
    rcases hp with rfl | rfl | rfl | rfl | rfl <;>
    simp [hs, stateSets, updatesAt_append, updatesAt_ite, updatesAt_cons, updatesAt_nil,
      updatesAt_powerSets, updatesAt_powerSets_base]

/-- C1, witness: the example of the specification, topic `tele/sonoffA/STATE`. -/
theorem state_mapping_witness :
    ∃ out, Handler exampleLib "tele/sonoffA/STATE".toList statePayload = some out ∧
      updatesAt out Gauge.VCC "sonoffA".toList "tele".toList = [Float64.dec 33 (-1)] ∧
      updatesAt out Gauge.RSSI "sonoffA".toList "tele".toList = [Float64.dec (-60) 0] ∧
      updatesAt out Gauge.Power "sonoffA".toList "tele".toList = [Float64.dec 1 0] ∧
      updatesAt out Gauge.Power "sonoffA1".toList "tele".toList = [Float64.dec 0 0] ∧
      updatesAt out Gauge.Power "sonoffA2".toList "tele".toList = [] ∧
      updatesAt out Gauge.Power "sonoffA3".toList "tele".toList = [] ∧
      updatesAt out Gauge.Power "sonoffA4".toList "tele".toList = [] := by
  obtain ⟨out, ho, hv, hr, hp⟩ := state_mapping exampleLib "tele".toList "sonoffA".toList
    statePayload _ (by decide) (by decide) (by decide) (by decide) (by decide) rfl
  exact ⟨out, ho, hv, hr, hp ([], "ON".toList) (by decide),
    hp ("1".toList, "OFF".toList) (by decide), hp ("2".toList, []) (by decide),
    hp ("3".toList, []) (by decide), hp ("4".toList, []) (by decide)⟩

/-- C1, counterexample: `tele/sonoff<newline>A/STATE` splits on `/` into three non-empty
segments and the payload decodes without error, yet the handler issues no update. -/
theorem state_mapping_counterexample :
    (exampleLib.UnmarshalState statePayload (SonoffState.empty exampleLib)).2 = false ∧
    Handler exampleLib "tele/sonoff\nA/STATE".toList statePayload = some [] := by
  decide

/-- C2 (amended).  For a topic `l1/l2/SENSOR` with `l1`, `l2` non-empty and without a
newline, `l2` without `/`, and a payload that `json.Unmarshal` decodes to the reading
`r`, the handler returns and sets, all at `(l2, l1)`: Current to `r.ENERGY.Current`,
Voltage to `float64(r.ENERGY.Voltage)`, Power (the gauge the STATE branch writes) to
`float64(r.ENERGY.Power)`, and Total to `r.ENERGY.Today`. -/
theorem sensor_mapping {F : Type} (lib : Lib F) (l1 l2 message : Str) (r : SonoffSensor F)
    (h1 : l1 ≠ []) (h2 : l2 ≠ []) (s2 : '/' ∉ l2) (n1 : '\n' ∉ l1) (n2 : '\n' ∉ l2)
    (hr : lib.UnmarshalSensor message (SonoffSensor.empty lib) = (r, false)) :
    ∃ out, Handler lib (l1 ++ '/' :: (l2 ++ '/' :: "SENSOR".toList)) message = some out ∧
      updatesAt out Gauge.Current l2 l1 = [r.ENERGY.Current] ∧
      updatesAt out Gauge.Voltage l2 l1 = [lib.float64 r.ENERGY.Voltage] ∧
      updatesAt out Gauge.Power l2 l1 = [lib.float64 r.ENERGY.Power] ∧
      updatesAt out Gauge.Total l2 l1 = [r.ENERGY.Today] := by
  have hm := FindStringSubmatch_eq l1 l2 "SENSOR".toList h1 h2 (by decide) n1 n2 (by decide) s2
    (by decide)
  refine ⟨_, Handler_of_match lib _ l1 l2 _ message hm, ?_, ?_, ?_, ?_⟩ <;>
  simp [hr, sensorSets, updatesAt_append, updatesAt_ite, updatesAt_cons, updatesAt_nil]

/-- C2, witness: the example of the specification, topic `tele/sonoffB/SENSOR`. -/
theorem sensor_mapping_witness :
    ∃ out, Handler exampleLib "tele/sonoffB/SENSOR".toList sensorPayload = some out ∧
      updatesAt out Gauge.Current "sonoffB".toList "tele".toList = [Float64.dec 5 (-1)] ∧
      updatesAt out Gauge.Voltage "sonoffB".toList "tele".toList = [Float64.dec 230 0] ∧
      updatesAt out Gauge.Power "sonoffB".toList "tele".toList = [Float64.dec 115 0] ∧
      updatesAt out Gauge.Total "sonoffB".toList "tele".toList = [Float64.dec 12 (-1)] :=
  sensor_mapping exampleLib "tele".toList "sonoffB".toList sensorPayload _
    (by decide) (by decide) (by decide) (by decide) (by decide) rfl

/-- C2, counterexample: `tele/sonoffB/SENSOR` with a newline inside the second segment
still splits into three non-empty segments and the payload decodes, yet the handler
issues no update. -/
theorem sensor_mapping_counterexample :
    (exampleLib.UnmarshalSensor sensorPayload (SonoffSensor.empty exampleLib)).2 = false ∧
    Handler exampleLib "tele/sonoff\nB/SENSOR".toList sensorPayload = some [] := by
  decide

/-- C3 (amended).  For non-empty `l2`, `l3` without `/` and without a newline, and a
payload that `strconv.ParseFloat` parses as `f`, the handler returns and sets the
Temperature gauge at `(l2, l3)` to `f` on the topic `temperature/l2/l3`, and the Humidity
gauge at `(l2, l3)` to `f` on the topic `humidity/l2/l3`. -/
theorem environment_mapping {F : Type} (lib : Lib F) (l2 l3 message : Str) (f : F)
    (h2 : l2 ≠ []) (h3 : l3 ≠ []) (s2 : '/' ∉ l2) (s3 : '/' ∉ l3)
    (n2 : '\n' ∉ l2) (n3 : '\n' ∉ l3) (hf : lib.ParseFloat message = (f, false)) :
    (∃ out, Handler lib ("temperature".toList ++ '/' :: (l2 ++ '/' :: l3)) message = some out ∧
      updatesAt out Gauge.Temperature l2 l3 = [f]) ∧
    (∃ out, Handler lib ("humidity".toList ++ '/' :: (l2 ++ '/' :: l3)) message = some out ∧
      updatesAt out Gauge.Humidity l2 l3 = [f]) := by
  have ht := FindStringSubmatch_eq "temperature".toList l2 l3 (by decide) h2 h3 (by decide) n2 n3
    s2 s3
  have hh := FindStringSubmatch_eq "humidity".toList l2 l3 (by decide) h2 h3 (by decide) n2 n3
    s2 s3
  refine ⟨⟨_, Handler_of_match lib _ _ l2 l3 message ht, ?_⟩,
    ⟨_, Handler_of_match lib _ _ l2 l3 message hh, ?_⟩⟩ <;>
  simp [hf, stateSets, sensorSets, updatesAt_append, updatesAt_ite, updatesAt_cons,
    updatesAt_nil, updatesAt_powerSets_other]

/-- C3, witness: the example of the specification, payload `23.5`. -/
theorem environment_mapping_witness :
    (∃ out, Handler exampleLib "temperature/livingroom/ceiling".toList "23.5".toList = some out ∧
      updatesAt out Gauge.Temperature "livingroom".toList "ceiling".toList =
        [Float64.dec 235 (-1)]) ∧
    (∃ out, Handler exampleLib "humidity/livingroom/ceiling".toList "23.5".toList = some out ∧
      updatesAt out Gauge.Humidity "livingroom".toList "ceiling".toList =
        [Float64.dec 235 (-1)]) :=
  environment_mapping exampleLib "livingroom".toList "ceiling".toList "23.5".toList _
    (by decide) (by decide) (by decide) (by decide) (by decide) (by decide) rfl

/-- C3, counterexample: `temperature/living<newline>room/ceiling` splits into three
non-empty segments and the payload parses, yet the handler issues no update. -/
theorem environment_mapping_counterexample :
    (exampleLib.ParseFloat "23.5".toList).2 = false ∧
    Handler exampleLib "temperature/living\nroom/ceiling".toList "23.5".toList = some [] := by
  decide


/-! ## Topics the router ignores, and the branches it takes -/

/-- C4 (amended).  A topic that cannot be written `x/y/z` with `x`, `y`, `z` non-empty
(every topic with fewer than three segments is one) gets no gauge update and no panic,
whatever the payload. -/
theorem unmatched_topic_ignored {F : Type} (lib : Lib F) (topicName message : Str)
    (h : ¬ ∃ x y z : Str, x ≠ [] ∧ y ≠ [] ∧ z ≠ [] ∧ topicName = x ++ '/' :: (y ++ '/' :: z)) :
    FindStringSubmatch topicName = [] ∧ Handler lib topicName message = some [] := by
  rcases FindStringSubmatch_shape topicName with h0 | ⟨x, y, z, hx, hy, hz, _, hs, _⟩
  · exact ⟨h0, Handler_of_no_match lib topicName message h0⟩
  · exact absurd ⟨x, y, z, hx, hy, hz, hs⟩ h

/-- C4, witness: the two-segment topic `tele/STATE`. -/
theorem unmatched_topic_ignored_witness :
    FindStringSubmatch "tele/STATE".toList = [] ∧
    Handler exampleLib "tele/STATE".toList statePayload = some [] :=
  unmatched_topic_ignored exampleLib "tele/STATE".toList statePayload (by
    rintro ⟨x, y, z, _, _, _, h⟩
    have hc := congrArg (List.count '/') h
    simp only [List.count_append, List.count_cons_self] at hc
    have h1 : List.count '/' "tele/STATE".toList = 1 := by decide
    omega)

/-- C4, counterexample: the topic `tele/kitchen/plug/STATE` has four segments (three `/`),
and the handler updates VCC, RSSI and Power at `(plug, tele/kitchen)`. -/
theorem unmatched_topic_ignored_counterexample :
    "tele/kitchen/plug/STATE".toList.count '/' = 3 ∧
    Handler exampleLib "tele/kitchen/plug/STATE".toList statePayload =
      some [⟨Gauge.VCC, "plug".toList, "tele/kitchen".toList, Float64.dec 33 (-1)⟩,
            ⟨Gauge.RSSI, "plug".toList, "tele/kitchen".toList, Float64.dec (-60) 0⟩,
            ⟨Gauge.Power, "plug".toList, "tele/kitchen".toList, Float64.dec 1 0⟩,
            ⟨Gauge.Power, "plug1".toList, "tele/kitchen".toList, Float64.dec 0 0⟩] := by
  decide

/-- C5 (amended).  On a topic that passes the guard `len(a) >= 3`, each of the four
branches returns, the handler issues their updates in order, the temperature and the
humidity branch never both issue updates, and the STATE and the SENSOR branch never both
issue updates: at most two branches run, one chosen by `a[1]` and one chosen by `a[3]`. -/
theorem branches_per_message {F : Type} (lib : Lib F) (topicName message : Str)
    (hg : 3 ≤ (FindStringSubmatch topicName).length) :
    ∃ t h st se,
      temperatureBranch lib (FindStringSubmatch topicName) message = some t ∧
      humidityBranch lib (FindStringSubmatch topicName) message = some h ∧
      stateBranch lib (FindStringSubmatch topicName) message = some st ∧
      sensorBranch lib (FindStringSubmatch topicName) message = some se ∧
      Handler lib topicName message = some (t ++ h ++ st ++ se) ∧
      (t = [] ∨ h = []) ∧ (st = [] ∨ se = []) := by
  rcases FindStringSubmatch_shape topicName with h0 | ⟨x, y, z, _, _, _, _, _, hm⟩
  · rw [h0] at hg
    exact absurd hg (by simp)
  · rw [Handler_of_match lib topicName x y z message hm, hm]
    refine ⟨_, _, _, _, temperatureBranch_eq lib _ x y z message,
      humidityBranch_eq lib _ x y z message, stateBranch_eq lib _ x y z message,
      sensorBranch_eq lib _ x y z message, rfl, ?_, ?_⟩
    · by_cases hx : x = "temperature".toList
      · right
        rw [if_neg]
        rw [hx]
        decide
      · left
        rw [if_neg hx]
    · by_cases hz : z = "STATE".toList
      · right
        rw [if_neg]
        rw [hz]
        decide
      · left
        rw [if_neg hz]

/-- C5, witness: `temperature/attic/STATE` passes the guard. -/
theorem branches_per_message_witness :
    ∃ t h st se,
      temperatureBranch exampleLib (FindStringSubmatch "temperature/attic/STATE".toList)
        "23.5".toList = some t ∧
      humidityBranch exampleLib (FindStringSubmatch "temperature/attic/STATE".toList)
        "23.5".toList = some h ∧
      stateBranch exampleLib (FindStringSubmatch "temperature/attic/STATE".toList)
        "23.5".toList = some st ∧
      sensorBranch exampleLib (FindStringSubmatch "temperature/attic/STATE".toList)
        "23.5".toList = some se ∧
      Handler exampleLib "temperature/attic/STATE".toList "23.5".toList =
        some (t ++ h ++ st ++ se) ∧
      (t = [] ∨ h = []) ∧ (st = [] ∨ se = []) :=
  branches_per_message exampleLib "temperature/attic/STATE".toList "23.5".toList (by decide)

/-- C5, counterexample: on `temperature/attic/STATE` the condition `a[1] == "temperature"`
and the condition `a[3] == "STATE"` both hold, and the handler issues the updates of the
temperature branch and of the STATE branch. -/
theorem branches_per_message_counterexample :
    temperatureBranch exampleLib (FindStringSubmatch "temperature/attic/STATE".toList)
      "23.5".toList =
      some [⟨Gauge.Temperature, "attic".toList, "STATE".toList, Float64.dec 235 (-1)⟩] ∧
    stateBranch exampleLib (FindStringSubmatch "temperature/attic/STATE".toList)
      "23.5".toList =
      some [⟨Gauge.VCC, "attic".toList, "temperature".toList, Float64.dec 0 0⟩,
            ⟨Gauge.RSSI, "attic".toList, "temperature".toList, Float64.dec 0 0⟩] ∧
    Handler exampleLib "temperature/attic/STATE".toList "23.5".toList =
      some [⟨Gauge.Temperature, "attic".toList, "STATE".toList, Float64.dec 235 (-1)⟩,
            ⟨Gauge.VCC, "attic".toList, "temperature".toList, Float64.dec 0 0⟩,
            ⟨Gauge.RSSI, "attic".toList, "temperature".toList, Float64.dec 0 0⟩] := by
  decide

/-- C10.  A topic with fewer than two `/` (fewer than three segments) does not match the
topic regexp, and the handler issues no gauge update, whatever the payload. -/
theorem short_topic_discarded {F : Type} (lib : Lib F) (topicName message : Str)
    (h : topicName.count '/' < 2) :
    FindStringSubmatch topicName = [] ∧ Handler lib topicName message = some [] := by
  have h0 : FindStringSubmatch topicName = [] := by
    by_contra hne
    have := count_slash_of_match hne
    omega
  exact ⟨h0, Handler_of_no_match lib topicName message h0⟩

/-- C10, witness: the topic `temperature/attic`. -/
theorem short_topic_discarded_witness :
    FindStringSubmatch "temperature/attic".toList = [] ∧
    Handler exampleLib "temperature/attic".toList "23.5".toList = some [] :=
  short_topic_discarded exampleLib "temperature/attic".toList "23.5".toList (by decide)


/-! ## Malformed payloads -/

/-- C6 (amended).  For non-empty `l2`, `l3` without `/` and without a newline, and a payload
on which `strconv.ParseFloat` returns the value `f` together with an error, the handler
returns and still issues the update: it sets Temperature at `(l2, l3)` to `f` on the topic
`temperature/l2/l3`, and Humidity at `(l2, l3)` to `f` on the topic `humidity/l2/l3`.  The
value set is the one the library returned with the error. -/
theorem parse_failure_update {F : Type} (lib : Lib F) (l2 l3 message : Str) (f : F)
    (h2 : l2 ≠ []) (h3 : l3 ≠ []) (s2 : '/' ∉ l2) (s3 : '/' ∉ l3)
    (n2 : '\n' ∉ l2) (n3 : '\n' ∉ l3) (hf : lib.ParseFloat message = (f, true)) :
    (∃ out, Handler lib ("temperature".toList ++ '/' :: (l2 ++ '/' :: l3)) message = some out ∧
      updatesAt out Gauge.Temperature l2 l3 = [f]) ∧
    (∃ out, Handler lib ("humidity".toList ++ '/' :: (l2 ++ '/' :: l3)) message = some out ∧
      updatesAt out Gauge.Humidity l2 l3 = [f]) := by
  have ht := FindStringSubmatch_eq "temperature".toList l2 l3 (by decide) h2 h3 (by decide) n2 n3
    s2 s3
  have hh := FindStringSubmatch_eq "humidity".toList l2 l3 (by decide) h2 h3 (by decide) n2 n3
    s2 s3
  refine ⟨⟨_, Handler_of_match lib _ _ l2 l3 message ht, ?_⟩,
    ⟨_, Handler_of_match lib _ _ l2 l3 message hh, ?_⟩⟩ <;>
  simp [hf, stateSets, sensorSets, updatesAt_append, updatesAt_ite, updatesAt_cons,
    updatesAt_nil, updatesAt_powerSets_other]

/-- C6, witness: the payload `abc` is no numeral; the value returned with the syntax error
is 0, and 0 is what the gauges are set to. -/
theorem parse_failure_update_witness :
    (∃ out, Handler exampleLib "temperature/livingroom/ceiling".toList "abc".toList = some out ∧
      updatesAt out Gauge.Temperature "livingroom".toList "ceiling".toList =
        [exampleLib.zero]) ∧
    (∃ out, Handler exampleLib "humidity/livingroom/ceiling".toList "abc".toList = some out ∧
      updatesAt out Gauge.Humidity "livingroom".toList "ceiling".toList =
        [exampleLib.zero]) :=
  parse_failure_update exampleLib "livingroom".toList "ceiling".toList "abc".toList _
    (by decide) (by decide) (by decide) (by decide) (by decide) (by decide) rfl

/-- C6, counterexample: on the numeral `1e999` the parse fails with a range error and the
Temperature gauge is set to `+Inf`, not to 0; and on a topic with a newline inside its
second segment no update is issued at all. -/
theorem parse_failure_update_counterexample :
    ((exampleLib.ParseFloat "1e999".toList).2 = true ∧
      Handler exampleLib "temperature/livingroom/ceiling".toList "1e999".toList =
        some [⟨Gauge.Temperature, "livingroom".toList, "ceiling".toList, Float64.posInf⟩] ∧
      Float64.posInf ≠ exampleLib.zero) ∧
    ((exampleLib.ParseFloat "abc".toList).2 = true ∧
      Handler exampleLib "temperature/living\nroom/ceiling".toList "abc".toList = some []) := by
  decide

/-- C7 (amended).  For `l1`, `l2` non-empty and without a newline, `l2` without `/`: if
`json.Unmarshal` returns an error and leaves the `SonoffState` as `s`, the handler returns
on the topic `l1/l2/STATE` and the mapping runs against `s`: VCC at `(l2, l1)` is set to
`s.Vcc`, RSSI to `float64(s.Wifi.RSSI)`, and Power at `(l2 ++ c, l1)` by the field of `s`
for each channel; when `s` is the zero-valued state this is VCC = 0, RSSI = 0 and no Power
update.  If it returns an error and leaves the `SonoffSensor` as `r`, the handler returns
on the topic `l1/l2/SENSOR` and sets Current, Voltage, Power and Total at `(l2, l1)` from
`r`; when `r` is the zero-valued reading all four are set to 0. -/
theorem decode_failure_updates {F : Type} (lib : Lib F) (l1 l2 message : Str)
    (h1 : l1 ≠ []) (h2 : l2 ≠ []) (s2 : '/' ∉ l2) (n1 : '\n' ∉ l1) (n2 : '\n' ∉ l2) :
    (∀ s, lib.UnmarshalState message (SonoffState.empty lib) = (s, true) →
      ∃ out, Handler lib (l1 ++ '/' :: (l2 ++ '/' :: "STATE".toList)) message = some out ∧
        updatesAt out Gauge.VCC l2 l1 = [s.Vcc] ∧
        updatesAt out Gauge.RSSI l2 l1 = [lib.float64 s.Wifi.RSSI] ∧
        (∀ p ∈ [(([] : Str), s.POWER), ("1".toList, s.POWER1), ("2".toList, s.POWER2),
                ("3".toList, s.POWER3), ("4".toList, s.POWER4)],
          updatesAt out Gauge.Power (l2 ++ p.1) l1 =
            if p.2 = "ON".toList then [lib.float64 1]
            else if p.2 = "OFF".toList then [lib.float64 0] else []) ∧
        (s = SonoffState.empty lib →
          updatesAt out Gauge.VCC l2 l1 = [lib.zero] ∧
          updatesAt out Gauge.RSSI l2 l1 = [lib.zero] ∧
          ∀ u ∈ out, u.gauge ≠ Gauge.Power)) ∧
    (∀ r, lib.UnmarshalSensor message (SonoffSensor.empty lib) = (r, true) →
      ∃ out, Handler lib (l1 ++ '/' :: (l2 ++ '/' :: "SENSOR".toList)) message = some out ∧
        updatesAt out Gauge.Current l2 l1 = [r.ENERGY.Current] ∧
        updatesAt out Gauge.Voltage l2 l1 = [lib.float64 r.ENERGY.Voltage] ∧
        updatesAt out Gauge.Power l2 l1 = [lib.float64 r.ENERGY.Power] ∧
        updatesAt out Gauge.Total l2 l1 = [r.ENERGY.Today] ∧
        (r = SonoffSensor.empty lib →
          updatesAt out Gauge.Current l2 l1 = [lib.zero] ∧
          updatesAt out Gauge.Voltage l2 l1 = [lib.zero] ∧
          updatesAt out Gauge.Power l2 l1 = [lib.zero] ∧
          updatesAt out Gauge.Total l2 l1 = [lib.zero])) := by
  constructor
  · intro s hs
    have hm := FindStringSubmatch_eq l1 l2 "STATE".toList h1 h2 (by decide) n1 n2 (by decide) s2
      (by decide)
    have ho := Handler_of_match lib _ l1 l2 _ message hm
    rw [hs] at ho
    refine ⟨_, ho, ?_, ?_, ?_, ?_⟩
    · simp [stateSets, updatesAt_append, updatesAt_ite, updatesAt_cons, updatesAt_nil,
        updatesAt_powerSets_other]
    · simp [stateSets, updatesAt_append, updatesAt_ite, updatesAt_cons, updatesAt_nil,
        updatesAt_powerSets_other]
    · intro p hp
      simp only [List.mem_cons, List.mem_singleton, List.not_mem_nil, or_false] at hp
      rcases hp with rfl | rfl | rfl | rfl | rfl <;>
      simp [stateSets, updatesAt_append, updatesAt_ite, updatesAt_cons, updatesAt_nil,
        updatesAt_powerSets, updatesAt_powerSets_base]
    · intro he
      subst he
      simp only [stateSets_empty]
      refine ⟨?_, ?_, ?_⟩
      · simp [updatesAt_append, updatesAt_ite, updatesAt_cons, updatesAt_nil]
      · simp [updatesAt_append, updatesAt_ite, updatesAt_cons, updatesAt_nil]
      · intro u hu
        simp only [List.mem_append, List.mem_ite_nil_right, List.mem_singleton, List.mem_cons,
          List.not_mem_nil, or_false] at hu
        rcases hu with ((⟨_, rfl⟩ | ⟨_, rfl⟩) | ⟨_, rfl | rfl⟩) | ⟨h, _⟩
        · simp
        · simp
        · simp
        · simp
        · exact absurd h (by decide)
  · intro r hr
    have hm := FindStringSubmatch_eq l1 l2 "SENSOR".toList h1 h2 (by decide) n1 n2 (by decide) s2
      (by decide)
    have ho := Handler_of_match lib _ l1 l2 _ message hm
    rw [hr] at ho
    refine ⟨_, ho, ?_, ?_, ?_, ?_, ?_⟩
    · simp [sensorSets, updatesAt_append, updatesAt_ite, updatesAt_cons, updatesAt_nil]
    · simp [sensorSets, updatesAt_append, updatesAt_ite, updatesAt_cons, updatesAt_nil]
    · simp [sensorSets, updatesAt_append, updatesAt_ite, updatesAt_cons, updatesAt_nil]
    · simp [sensorSets, updatesAt_append, updatesAt_ite, updatesAt_cons, updatesAt_nil]
    · intro he
      subst he
      simp [sensorSets_empty, updatesAt_append, updatesAt_ite, updatesAt_cons, updatesAt_nil]

/-- C7, witness: on `stateMismatchPayload` the error comes with `Vcc` stored, and VCC is
set to it; the payload `not json` is rejected by `json.Unmarshal` before anything is
stored, and the updates are those of the zero-valued structures. -/
theorem decode_failure_updates_witness :
    (∃ out, Handler exampleLib "tele/sonoffA/STATE".toList stateMismatchPayload = some out ∧
        updatesAt out Gauge.VCC "sonoffA".toList "tele".toList = [Float64.dec 33 (-1)] ∧
        updatesAt out Gauge.RSSI "sonoffA".toList "tele".toList = [Float64.dec 0 0] ∧
        updatesAt out Gauge.Power "sonoffA".toList "tele".toList = []) ∧
    (∃ out, Handler exampleLib "tele/sonoffA/STATE".toList "not json".toList = some out ∧
        updatesAt out Gauge.VCC "sonoffA".toList "tele".toList = [exampleLib.zero] ∧
        updatesAt out Gauge.RSSI "sonoffA".toList "tele".toList = [exampleLib.zero] ∧
        ∀ u ∈ out, u.gauge ≠ Gauge.Power) ∧
    (∃ out, Handler exampleLib "tele/sonoffA/SENSOR".toList "not json".toList = some out ∧
        updatesAt out Gauge.Current "sonoffA".toList "tele".toList = [exampleLib.zero] ∧
        updatesAt out Gauge.Voltage "sonoffA".toList "tele".toList = [exampleLib.zero] ∧
        updatesAt out Gauge.Power "sonoffA".toList "tele".toList = [exampleLib.zero] ∧
        updatesAt out Gauge.Total "sonoffA".toList "tele".toList = [exampleLib.zero]) := by
  obtain ⟨o1, h1, v1, r1, p1, _⟩ :=
    (decode_failure_updates exampleLib "tele".toList "sonoffA".toList stateMismatchPayload
      (by decide) (by decide) (by decide) (by decide) (by decide)).1 _ rfl
  obtain ⟨o2, h2, _, _, _, z2⟩ :=
    (decode_failure_updates exampleLib "tele".toList "sonoffA".toList "not json".toList
      (by decide) (by decide) (by decide) (by decide) (by decide)).1 _ rfl
  obtain ⟨o3, h3, _, _, _, _, z3⟩ :=
    (decode_failure_updates exampleLib "tele".toList "sonoffA".toList "not json".toList
      (by decide) (by decide) (by decide) (by decide) (by decide)).2 _ rfl
  exact ⟨⟨o1, h1, v1, r1, p1 ([], []) (by decide)⟩, ⟨o2, h2, z2 rfl⟩, ⟨o3, h3, z3 rfl⟩⟩

/-- C7, counterexample: on a payload whose `Uptime` is a string, `json.Unmarshal` returns an
error after it has stored `Vcc`, and VCC is set to 3.3, not to 0; and on a topic with a
newline inside its second segment no update is issued at all. -/
theorem decode_failure_updates_counterexample :
    ((exampleLib.UnmarshalState stateMismatchPayload (SonoffState.empty exampleLib)).2 = true ∧
      Handler exampleLib "tele/sonoffA/STATE".toList stateMismatchPayload =
        some [⟨Gauge.VCC, "sonoffA".toList, "tele".toList, Float64.dec 33 (-1)⟩,
              ⟨Gauge.RSSI, "sonoffA".toList, "tele".toList, Float64.dec 0 0⟩] ∧
      Float64.dec 33 (-1) ≠ exampleLib.zero) ∧
    ((exampleLib.UnmarshalState "not json".toList (SonoffState.empty exampleLib)).2 = true ∧
      Handler exampleLib "tele/sonoff\nA/STATE".toList "not json".toList = some []) := by
  decide

/-! ## The connect loop -/

/-- C9.  If the first `N` calls of `cli.Connect` fail and call `N + 1` succeeds, the loop is
left (for every bound above `N` on the number of iterations followed), after exactly `N`
failed rounds, each one a call of `Connect`, the two log lines and one sleep of
`30 * time.Second`, and one last call of `Connect` with nothing after it: `N + 1` calls of
`Connect` and `N` sleeps of 30 seconds.  The loop has no error result. -/
theorem connect_retry (connect : Nat → Option Str) (N fuel : Nat)
    (hfail : ∀ i, i < N → (connect i).isSome = true) (hok : connect N = none)
    (hfuel : N < fuel) :
    ∃ t, connectLoop connect fuel 0 = some t ∧
      attempts t = N + 1 ∧
      sleeps t = List.replicate N (30 * Second) ∧
      t.getLast? = some Event.Connect ∧
      ∃ errs : List Str, errs.length = N ∧ t = errs.flatMap failedRound ++ [Event.Connect] := by
  have hlen : ((List.range N).map (fun i => (connect i).getD [])).length = N := by simp
  have htrace := connectLoop_trace connect ((List.range N).map (fun i => (connect i).getD []))
    0 fuel
    (by
      intro i hi
      have hi2 : i < N := by simpa using hi
      obtain ⟨e, he⟩ := Option.isSome_iff_exists.mp (hfail i hi2)
      simp [he])
    (by simpa using hok) (by simpa using hfuel)
  refine ⟨_, htrace, ?_, ?_, ?_, _, hlen, rfl⟩
  · rw [attempts_rounds, hlen]
    rfl
  · rw [sleeps_rounds, hlen]
    simp [sleeps]
  · simp

/-- C9, witness: two refused connections, then success. -/
theorem connect_retry_witness :
    ∃ t, connectLoop (fun k => if k < 2 then some "refused".toList else none) 5 0 = some t ∧
      attempts t = 2 + 1 ∧
      sleeps t = List.replicate 2 (30 * Second) ∧
      t.getLast? = some Event.Connect ∧
      ∃ errs : List Str, errs.length = 2 ∧ t = errs.flatMap failedRound ++ [Event.Connect] :=
  connect_retry (fun k => if k < 2 then some "refused".toList else none) 2 5
    (by decide) (by decide) (by decide)

/-! ## Facts about the handler on bytes -/

namespace OnBytes

theorem bytes_mem_dotPlus {s x r : Bytes} (h : (x, r) ∈ dotPlus s) : s = x ++ r := by
  induction s generalizing x with
  | nil => simp [dotPlus] at h
  | cons c s ih =>
    simp only [dotPlus] at h
    split_ifs at h with hc
    · simp at h
    · simp only [List.mem_append, List.mem_map, List.mem_singleton, Prod.mk.injEq] at h
      rcases h with ⟨p, hp, rfl, rfl⟩ | ⟨rfl, rfl⟩
      · have h2 := ih (x := p.1) hp
        simp [← h2]
      · simp

theorem bytes_matchLabel3_some {s x y r : Bytes} {a : List Bytes}
    (h : matchLabel3 s x y r = some a) : ∃ z, r = 47 :: z ∧ a = [s, x, y, z] := by
  unfold matchLabel3 at h
  split at h
  · obtain ⟨q, hq, hf⟩ := List.exists_of_findSome?_eq_some h
    obtain ⟨z, r3⟩ := q
    have hs := bytes_mem_dotPlus hq
    by_cases h3 : r3 = []
    · subst h3
      simp only [if_true, Option.some.injEq] at hf
      exact ⟨z, by simp [hs], hf.symm⟩
    · simp [h3] at hf
  · exact absurd h (by simp)

theorem bytes_matchLabel2_some {s x r : Bytes} {a : List Bytes}
    (h : matchLabel2 s x r = some a) :
    ∃ y z, r = 47 :: (y ++ 47 :: z) ∧ a = [s, x, y, z] := by
  unfold matchLabel2 at h
  split at h
  · obtain ⟨q, hq, hf⟩ := List.exists_of_findSome?_eq_some h
    obtain ⟨y, r2⟩ := q
    have hs := bytes_mem_dotPlus hq
    obtain ⟨z, hr, ha⟩ := bytes_matchLabel3_some hf
    dsimp only at hr ha
    exact ⟨y, z, by simp [hs, hr], ha⟩
  · exact absurd h (by simp)

/-- On bytes too the result is `nil` or the topic and three groups with `topic = x/y/z`. -/
theorem bytes_FindStringSubmatch_shape (s : Bytes) :
    FindStringSubmatch s = [] ∨
    ∃ x y z, s = x ++ 47 :: (y ++ 47 :: z) ∧ FindStringSubmatch s = [s, x, y, z] := by
  unfold FindStringSubmatch
  split
  · rename_i a h
    right
    obtain ⟨q, hq, hf⟩ := List.exists_of_findSome?_eq_some h
    obtain ⟨x, r⟩ := q
    have hs := bytes_mem_dotPlus hq
    obtain ⟨y, z, hr, ha⟩ := bytes_matchLabel2_some hf
    dsimp only at hr ha
    exact ⟨x, y, z, by rw [hs, hr], ha⟩
  · left; rfl

/-- The byte `/` is accepted only at the start of an encoding, and leaves the decoder there. -/
theorem utf8Step_slash {st next : Utf8State} (h : utf8Step st 47 = some next) :
    st = Utf8State.start ∧ next = Utf8State.start := by
  cases st <;> simp [utf8Step] at h
  exact ⟨rfl, h.symm⟩

/-- Valid UTF-8 cut at a `/` is valid UTF-8 on both sides. -/
theorem validFrom_split (x y : Bytes) :
    ∀ st, validFrom st (x ++ 47 :: y) = true →
      validFrom st x = true ∧ validFrom Utf8State.start y = true := by
  induction x with
  | nil =>
    intro st h
    simp only [List.nil_append, validFrom] at h
    cases hs : utf8Step st 47 with
    | none => simp [hs] at h
    | some next =>
      obtain ⟨h1, h2⟩ := utf8Step_slash hs
      rw [hs, h2] at h
      exact ⟨by simp [validFrom, h1], h⟩
  | cons b x ih =>
    intro st h
    simp only [List.cons_append, validFrom] at h ⊢
    cases hs : utf8Step st b with
    | none => simp [hs] at h
    | some next =>
      rw [hs] at h
      exact ih next h

/-- Valid UTF-8 followed by valid UTF-8 is valid UTF-8. -/
theorem validFrom_append (x y : Bytes) (hy : validFrom Utf8State.start y = true) :
    ∀ st, validFrom st x = true → validFrom st (x ++ y) = true := by
  induction x with
  | nil =>
    intro st h
    simp only [validFrom, decide_eq_true_eq] at h
    rw [h]
    exact hy
  | cons b x ih =>
    intro st h
    simp only [List.cons_append, validFrom] at h ⊢
    cases hs : utf8Step st b with
    | none => simp [hs] at h
    | some next =>
      rw [hs] at h
      exact ih next h

/-- The three groups of a topic that is valid UTF-8 are valid UTF-8. -/
theorem ValidString_groups (x y z : Bytes) (h : ValidString (x ++ 47 :: (y ++ 47 :: z)) = true) :
    ValidString x = true ∧ ValidString y = true ∧ ValidString z = true := by
  obtain ⟨hx, hyz⟩ := validFrom_split x _ _ h
  obtain ⟨hy, hz⟩ := validFrom_split y z _ hyz
  exact ⟨hx, hy, hz⟩

theorem WithLabelValues_valid {F : Type} (g : Gauge) (lv1 lv2 : Bytes) (v : F)
    (h1 : ValidString lv1 = true) (h2 : ValidString lv2 = true) :
    WithLabelValues g lv1 lv2 v = some ⟨g, lv1, lv2, v⟩ := by
  simp [WithLabelValues, h1, h2]

theorem bytes_powerUpdates_some {F : Type} (lib : ByteLib F) (s l1 l2 l3 : Bytes) (field : Str)
    (suffix : Bytes) (h1 : ValidString l1 = true) (h2 : ValidString l2 = true)
    (hs : ValidString suffix = true) :
    ∃ out, powerUpdates lib [s, l1, l2, l3] field suffix = some out := by
  have h2s : ValidString (l2 ++ suffix) = true := validFrom_append l2 suffix hs _ h2
  simp only [powerUpdates, index, List.getElem?_cons_succ, List.getElem?_cons_zero,
    Option.bind_eq_bind, Option.some_bind, WithLabelValues_valid _ _ _ _ h2s h1]
  split_ifs <;> exact ⟨_, rfl⟩

/-- On a topic that is valid UTF-8 the handler returns. -/
theorem bytes_Handler_total {F : Type} (lib : ByteLib F) (topicName message : Bytes)
    (hv : ValidString topicName = true) : ∃ out, Handler lib topicName message = some out := by
  rcases bytes_FindStringSubmatch_shape topicName with h0 | ⟨x, y, z, hs, hm⟩
  · exact ⟨[], by unfold Handler; rw [h0]; rfl⟩
  · rw [hs] at hv
    obtain ⟨hx, hy, hz⟩ := ValidString_groups x y z hv
    obtain ⟨p, hp⟩ := bytes_powerUpdates_some lib topicName x y z
      (lib.UnmarshalState message (emptyState lib)).1.POWER [] hx hy (by decide)
    obtain ⟨p1, hp1⟩ := bytes_powerUpdates_some lib topicName x y z
      (lib.UnmarshalState message (emptyState lib)).1.POWER1 (ascii "1") hx hy (by decide)
    obtain ⟨p2, hp2⟩ := bytes_powerUpdates_some lib topicName x y z
      (lib.UnmarshalState message (emptyState lib)).1.POWER2 (ascii "2") hx hy (by decide)
    obtain ⟨p3, hp3⟩ := bytes_powerUpdates_some lib topicName x y z
      (lib.UnmarshalState message (emptyState lib)).1.POWER3 (ascii "3") hx hy (by decide)
    obtain ⟨p4, hp4⟩ := bytes_powerUpdates_some lib topicName x y z
      (lib.UnmarshalState message (emptyState lib)).1.POWER4 (ascii "4") hx hy (by decide)
    unfold Handler
    rw [hm]
    simp only [temperatureBranch, humidityBranch, stateBranch, sensorBranch, index,
      List.getElem?_cons_succ, List.getElem?_cons_zero, Option.bind_eq_bind, Option.some_bind,
      WithLabelValues_valid _ _ _ _ hy hz, WithLabelValues_valid _ _ _ _ hy hx,
      hp, hp1, hp2, hp3, hp4]
    split_ifs <;> exact ⟨_, rfl⟩

theorem bytes_HandleAll_append {F : Type} (lib : ByteLib F) (ms : List (Bytes × Bytes))
    (topicName message : Bytes) (out : List (ByteUpdate F))
    (hms : ∀ m ∈ ms, ValidString m.1 = true) (h : Handler lib topicName message = some out) :
    ∃ before, HandleAll lib ms = some before ∧
      HandleAll lib (ms ++ [(topicName, message)]) = some (before ++ out) := by
  induction ms with
  | nil => exact ⟨[], rfl, by simp [HandleAll, h]⟩
  | cons m ms ih =>
    obtain ⟨before, hb, ha⟩ := ih (fun m2 hm2 => hms m2 (List.mem_cons_of_mem _ hm2))
    obtain ⟨o, ho⟩ := bytes_Handler_total lib m.1 m.2 (hms m (List.mem_cons_self _ _))
    exact ⟨o ++ before, by simp [HandleAll, ho, hb], by simp [HandleAll, ho, ha]⟩

end OnBytes

namespace OnBytes

/-- C8 (amended).  For every topic and payload, as bytes: whenever the guard `len(a) >= 3`
passes, `a` has length 4 and `a[1]`, `a[2]`, `a[3]` are in range.  For every topic that is
valid UTF-8 and every payload the handler returns (no panic, at an index or in
`WithLabelValues`); and after any earlier messages whose topics are valid UTF-8, which
are all handled too, the updates issued for the next message are exactly those the
handler gives for it alone. -/
theorem handler_completes {F : Type} (lib : ByteLib F) (earlier : List (Bytes × Bytes))
    (topicName message : Bytes) :
    (3 ≤ (FindStringSubmatch topicName).length →
      (FindStringSubmatch topicName).length = 4 ∧
      (index (FindStringSubmatch topicName) 1).isSome ∧
      (index (FindStringSubmatch topicName) 2).isSome ∧
      (index (FindStringSubmatch topicName) 3).isSome) ∧
    (ValidString topicName = true → (∀ m ∈ earlier, ValidString m.1 = true) →
      ∃ out, Handler lib topicName message = some out ∧
        ∃ before, HandleAll lib earlier = some before ∧
          HandleAll lib (earlier ++ [(topicName, message)]) = some (before ++ out)) := by
  constructor
  · intro hg
    rcases bytes_FindStringSubmatch_shape topicName with h0 | ⟨x, y, z, _, hm⟩
    · rw [h0] at hg
      exact absurd hg (by simp)
    · rw [hm]
      simp [index]
  · intro hv hearlier
    obtain ⟨out, ho⟩ := bytes_Handler_total lib topicName message hv
    exact ⟨out, ho, bytes_HandleAll_append lib earlier topicName message out hearlier ho⟩

/-- C8, witness: a valid STATE message after a STATE message with a malformed payload. -/
theorem handler_completes_witness :
    ((FindStringSubmatch (ascii "tele/sonoffA/STATE")).length = 4 ∧
      (index (FindStringSubmatch (ascii "tele/sonoffA/STATE")) 1).isSome ∧
      (index (FindStringSubmatch (ascii "tele/sonoffA/STATE")) 2).isSome ∧
      (index (FindStringSubmatch (ascii "tele/sonoffA/STATE")) 3).isSome) ∧
    (∃ out, Handler exampleByteLib (ascii "tele/sonoffA/STATE")
        (statePayload.map Char.toNat) = some out ∧
      ∃ before, HandleAll exampleByteLib [(ascii "tele/sonoffB/STATE", ascii "not json")] =
          some before ∧
        HandleAll exampleByteLib ([(ascii "tele/sonoffB/STATE", ascii "not json")] ++
          [(ascii "tele/sonoffA/STATE", statePayload.map Char.toNat)]) =
            some (before ++ out)) :=
  ⟨(handler_completes exampleByteLib [(ascii "tele/sonoffB/STATE", ascii "not json")]
      (ascii "tele/sonoffA/STATE") (statePayload.map Char.toNat)).1 (by decide),
   (handler_completes exampleByteLib [(ascii "tele/sonoffB/STATE", ascii "not json")]
      (ascii "tele/sonoffA/STATE") (statePayload.map Char.toNat)).2 (by decide) (by decide)⟩

/-- C8, counterexample: the second segment of `temperature/<0xFF>/c` is not valid UTF-8;
the regexp matches, `WithLabelValues` panics on the label value, the handler does not
return, and the valid message after it, which alone sets Temperature at
`(livingroom, ceiling)`, is never handled. -/
theorem handler_completes_counterexample :
    ValidString badTopic = false ∧
    FindStringSubmatch badTopic = [badTopic, ascii "temperature", [0xFF], ascii "c"] ∧
    Handler exampleByteLib badTopic (ascii "23.5") = none ∧
    Handler exampleByteLib (ascii "temperature/livingroom/ceiling") (ascii "23.5") =
      some [⟨Gauge.Temperature, ascii "livingroom", ascii "ceiling", Float64.dec 235 (-1)⟩] ∧
    HandleAll exampleByteLib [(badTopic, ascii "23.5"),
      (ascii "temperature/livingroom/ceiling", ascii "23.5")] = none := by
  decide

end OnBytes

end Mqtt2Prom
